import Mathlib

/-
Verification of the state-synchronization, scheduling and change-logging core
of the master-controller firmware (src/app.ino).

The embedding below translates the relevant functions of app.ino into pure
Lean functions.  The mutable globals (masterRelayStates, slaves/slaveCount,
schedules/scheduleCount, the /relays.txt log file and the two persistence
files) are gathered into a single record `SysState`; the dense array+count
pairs of the C code become Lean lists.  External collaborators are modelled
as inputs: the ESP-NOW send result (`sendOk`), the esp_now_add_peer result
(`addPeerOk`), the RTC time and millis() (`now : Nat`).  SD writes that
rewrite /states.txt or /slaves.txt are modelled as counters (`stateSaves`,
`slaveInfoSaves`); the append-only /relays.txt log is modelled as a list of
structured rows (`LogLine`), one per printed CSV line.  The substring match
`line.indexOf(roomName + "," + relayIndex) > 0` used by logRelayChange is
modelled as field equality on (room, relay): for the file format the code
itself produces (room names "Master"/"Slave1".."Slave10", relay 0..3,
timestamps and durations containing no "Slave"/"Master" text) the substring
test matches exactly the rows of the same room and relay.  The timestamp
columns are modelled by their unixtime value; unsigned 32-bit subtraction
is kept explicit via `usub32`.
-/

/-- 32-bit unsigned subtraction, as performed on `unsigned long` /
`uint32_t` values in the firmware (`now.unixtime() - lastTime.unixtime()`,
`currentTime - schedules[i].targetTime`). -/
def usub32 (a b : Nat) : Nat :=
  (a + 4294967296 - b % 4294967296) % 4294967296

/-- 32-bit unsigned addition, as performed when a sum is stored into an
`unsigned long` in the firmware (`millis() + minutes * 60 * 1000`). -/
def uadd32 (a b : Nat) : Nat :=
  (a + b) % 4294967296

/-- The state string written to the log: `state ? "ON" : "OFF"`. -/
def stateName (b : Bool) : String :=
  if b then "ON" else "OFF"

/-- Lower-case hex digit, as produced by the `%02x` format of getMacString. -/
def hexDigit (n : Nat) : Char :=
  if n < 10 then Char.ofNat (48 + n) else Char.ofNat (87 + n)

/-- Two-digit lower-case hex rendering of one MAC byte (`%02x`). -/
def hexByte (b : Nat) : String :=
  String.mk [hexDigit (b / 16 % 16), hexDigit (b % 16)]

/-- getMacString of app.ino: `"%02x:%02x:%02x:%02x:%02x:%02x"`. -/
def getMacString (mac : List Nat) : String :=
  String.intercalate ":" (mac.map hexByte)

/-- One row of /relays.txt: `Timestamp,Room,Relay,State,Duration`.
`time` is the unixtime of the Timestamp column; `room` is -1 for "Master"
and `n` for "Slave(n+1)". -/
structure LogLine where
  time : Nat
  room : Int
  relay : Nat
  state : Bool
  duration : Nat
deriving DecidableEq, Repr

/-- The scan loop of logRelayChange: the last line of /relays.txt that
matches the queried room and relay (the code keeps overwriting `lastLine`). -/
def lastMatching (room : Int) (relay : Nat) (log : List LogLine) : Option LogLine :=
  (log.filter (fun e => e.room == room && e.relay == relay)).getLast?

/-- The `prevState` string that logRelayChange actually extracts from the
matched line: the text between the second comma and the last comma of
`Timestamp,Room,Relay,State,Duration`, which is the two fields
`Relay,State` — not the State field alone. -/
def prevStateField (e : LogLine) : String :=
  toString e.relay ++ "," ++ stateName e.state

/-- Duration computed by logRelayChange: from the last matching line, if
its extracted `prevState` differs from the new state string, the unsigned
difference of unixtimes, else 0.  (Because `prevStateField` always contains
the relay digit and a comma, the inequality always holds when a matching
line exists.) -/
def logDuration (now : Nat) (room : Int) (relay : Nat) (state : Bool)
    (log : List LogLine) : Nat :=
  match lastMatching room relay log with
  | none => 0
  | some e => if prevStateField e ≠ stateName state then usub32 now e.time else 0

/-- logRelayChange of app.ino: computes the duration from the existing file
content and appends one new row.  (The SD-mount guard is modelled as always
succeeding; a mount failure would drop the append entirely.) -/
def logRelayChange (now : Nat) (room : Int) (relay : Nat) (state : Bool)
    (log : List LogLine) : List LogLine :=
  log ++ [⟨now, room, relay, state, logDuration now room relay state log⟩]

/-- Modelled from the spec: the duration rule stated in §4.4 — the most
recent prior entry for the same node+relay whose recorded state differs
from the new state; duration = timestamp − that entry's timestamp, or zero
if no such entry exists.  Used only to compare the source behaviour with
the specified behaviour. -/
def specLastDifferingDuration (now : Nat) (room : Int) (relay : Nat) (state : Bool)
    (log : List LogLine) : Nat :=
  match (log.filter (fun e => e.room == room && e.relay == relay && e.state != state)).getLast? with
  | none => 0
  | some e => usub32 now e.time

/-- SlaveInfo of app.ino. -/
structure SlaveInfo where
  macAddress : List Nat
  active : Bool
  relayStates : List Bool
  name : String
deriving DecidableEq, Repr

/-- ScheduleItem of app.ino. -/
structure ScheduleItem where
  roomIndex : Int
  relayIndex : Int
  targetState : Bool
  targetTime : Nat
  executed : Bool
deriving DecidableEq, Repr

/-- The mutable globals of app.ino that the core reads and writes, plus the
modelled persistence: `log` is the content of /relays.txt, `stateSaves`
counts saveRelayStates calls (rewrites of /states.txt) and `slaveInfoSaves`
counts saveSlaveInfo calls (rewrites of /slaves.txt). -/
structure SysState where
  masterRelayStates : List Bool
  slaves : List SlaveInfo
  schedules : List ScheduleItem
  log : List LogLine
  stateSaves : Nat
  slaveInfoSaves : Nat
deriving DecidableEq, Repr

/-- A freshly registered slave entry as built by handleAddSlave: given MAC,
given name, inactive, all four relays off. -/
def mkSlave (mac : List Nat) (name : String) : SlaveInfo :=
  { macAddress := mac, active := false
    relayStates := [false, false, false, false], name := name }

/-- The auto-registration entry built by onDataReceived for an unknown
sender: name "Auto " + MAC string, active, all four relays off. -/
def autoSlave (mac : List Nat) : SlaveInfo :=
  { macAddress := mac, active := true
    relayStates := [false, false, false, false]
    name := "Auto " ++ getMacString mac }

/-- The lookup loop at the head of onDataReceived: finds the first slave
whose MAC equals the sender's and sets its `active` flag in the same pass.
Returns the index and the updated list, or none when the sender is unknown. -/
def findAndMark : List SlaveInfo → List Nat → Option (Nat × List SlaveInfo)
  | [], _ => none
  | s :: rest, mac =>
    if s.macAddress = mac then some (0, { s with active := true } :: rest)
    else
      match findAndMark rest mac with
      | some (i, rest') => some (i + 1, s :: rest')
      | none => none

/-- The master-relay write path shared by handleRelayToggle (room = -1),
the TM1638 buttons and processSchedules: set the state, drive the pin
(external actuator), append a log row, rewrite /states.txt. -/
def masterApply (now : Nat) (st : SysState) (relay : Nat) (b : Bool) : SysState :=
  { st with
    masterRelayStates := st.masterRelayStates.set relay b
    log := logRelayChange now (-1) relay b st.log
    stateSaves := st.stateSaves + 1 }

/-- sendCommandToSlave of app.ino.  `sendOk` is the esp_now_send result.
Out-of-range slave index: immediate return.  On send success the state is
updated optimistically, one log row is appended and /states.txt rewritten;
on send failure only an error is printed and nothing changes. -/
def sendCommandToSlave (sendOk : Bool) (now : Nat) (st : SysState)
    (slaveIndex : Int) (relayIndex : Nat) (b : Bool) : SysState :=
  if slaveIndex < 0 ∨ (st.slaves.length : Int) ≤ slaveIndex then st
  else if sendOk then
    match st.slaves.get? slaveIndex.toNat with
    | none => st
    | some sl =>
      { st with
        slaves := st.slaves.set slaveIndex.toNat
          { sl with relayStates := sl.relayStates.set relayIndex b }
        log := logRelayChange now (Int.ofNat slaveIndex.toNat) relayIndex b st.log
        stateSaves := st.stateSaves + 1 }
  else st

/-- handleRelayToggle of app.ino (the /toggle endpoint with all three
parameters present). -/
def handleRelayToggle (sendOk : Bool) (now : Nat) (st : SysState)
    (room relay : Int) (b : Bool) : SysState :=
  if room = -1 then
    if 0 ≤ relay ∧ relay < 4 then masterApply now st relay.toNat b else st
  else
    if 0 ≤ room ∧ room < (st.slaves.length : Int) ∧ 0 ≤ relay ∧ relay < 4 then
      sendCommandToSlave sendOk now st room relay.toNat b
    else st

/-- handleAddSlave of app.ino (the /add_slave endpoint, with the MAC given
already parsed into its six bytes; a string that fails the sscanf parse
leads to the same no-change result as `addPeerOk = false`).  There is no
address lookup: the entry is appended whenever the capacity check and the
external esp_now_add_peer call succeed. -/
def handleAddSlave (addPeerOk : Bool) (st : SysState)
    (mac : List Nat) (name : String) : SysState :=
  if st.slaves.length < 10 ∧ addPeerOk then
    { st with
      slaves := st.slaves ++ [mkSlave mac name]
      slaveInfoSaves := st.slaveInfoSaves + 1 }
  else st

/-- One channel of the reconciliation loop in onDataReceived: newState is
`reported == 1`; only when it differs from the stored state are the
state-set, the log append and the /states.txt rewrite performed. -/
def reconcileStep (now : Nat) (si : Nat) (i : Nat) (rep : Nat) (st : SysState) : SysState :=
  match st.slaves.get? si with
  | none => st
  | some sl =>
    if sl.relayStates.getD i false = (rep == 1) then st
    else
      { st with
        slaves := st.slaves.set si
          { sl with relayStates := sl.relayStates.set i (rep == 1) }
        log := logRelayChange now (Int.ofNat si) i (rep == 1) st.log
        stateSaves := st.stateSaves + 1 }

/-- The four-channel reconciliation loop of onDataReceived, channels 0..3
in order. -/
def reconcileVec (now : Nat) (si : Nat) (v0 v1 v2 v3 : Nat) (st : SysState) : SysState :=
  reconcileStep now si 3 v3 (reconcileStep now si 2 v2
    (reconcileStep now si 1 v1 (reconcileStep now si 0 v0 st)))

/-- onDataReceived of app.ino.  `v` is the received payload as bytes; the
`data_len == sizeof(StatusData)` check is the match on a four-element list.
Known sender: mark active (done inside the lookup loop), then reconcile the
four channels.  Unknown sender: if below the node cap and esp_now_add_peer
succeeds, append an auto-named entry and rewrite /slaves.txt — the payload
of this first message is not processed. -/
def onDataReceived (addPeerOk : Bool) (now : Nat) (st : SysState)
    (mac : List Nat) (v : List Nat) : SysState :=
  match findAndMark st.slaves mac with
  | some (si, slaves') =>
    let st' := { st with slaves := slaves' }
    match v with
    | [v0, v1, v2, v3] => reconcileVec now si v0 v1 v2 v3 st'
    | _ => st'
  | none =>
    if st.slaves.length < 10 ∧ addPeerOk then
      { st with
        slaves := st.slaves ++ [autoSlave mac]
        slaveInfoSaves := st.slaveInfoSaves + 1 }
    else st

/-- handleSchedule of app.ino (the /schedule endpoint with all parameters
present): capacity is checked against MAX_SCHEDULES, the delay must be
1..1440 minutes, and the accepted item stores targetTime = millis() +
minutes*60*1000 with executed = false.  The stored sum lives in a 32-bit
`unsigned long`, so it wraps mod 2^32 (`uadd32`); the int product
minutes*60*1000 itself stays below 2^31 for the accepted range. -/
def handleSchedule (room relay : Int) (b : Bool) (minutes : Int) (now : Nat)
    (st : SysState) : SysState :=
  if st.schedules.length < 20 ∧ 0 < minutes ∧ minutes ≤ 1440 then
    { st with
      schedules := st.schedules ++
        [⟨room, relay, b, uadd32 now (minutes.toNat * 60 * 1000), false⟩] }
  else st

/-- The due test of the processSchedules loop:
`!schedules[i].executed && currentTime >= schedules[i].targetTime`. -/
def isDue (now : Nat) (a : ScheduleItem) : Bool :=
  decide (a.executed = false ∧ a.targetTime ≤ now)

/-- The retention test of the cleanup loop of processSchedules:
`!schedules[i].executed || currentTime - schedules[i].targetTime < 60000`. -/
def keepB (now : Nat) (a : ScheduleItem) : Bool :=
  !a.executed || decide (usub32 now a.targetTime < 60000)

/-- The dispatch performed by processSchedules for one due item: the master
branch (same guarded write path as handleRelayToggle) or the slave branch
(sendCommandToSlave after the range checks). -/
def execAction (sendOk : Bool) (now : Nat) (st : SysState) (a : ScheduleItem) : SysState :=
  if a.roomIndex = -1 then
    if 0 ≤ a.relayIndex ∧ a.relayIndex < 4 then
      masterApply now st a.relayIndex.toNat a.targetState
    else st
  else
    if 0 ≤ a.roomIndex ∧ a.roomIndex < (st.slaves.length : Int) ∧
        0 ≤ a.relayIndex ∧ a.relayIndex < 4 then
      sendCommandToSlave sendOk now st a.roomIndex a.relayIndex.toNat a.targetState
    else st

/-- The execution loop of processSchedules: walk the schedule entries in
storage order; each due one is dispatched and its executed flag set.
Returns the state after all dispatches and the updated entry list. -/
def runSchedules (sendOk : Bool) (now : Nat) :
    SysState → List ScheduleItem → SysState × List ScheduleItem
  | st, [] => (st, [])
  | st, a :: rest =>
    if isDue now a then
      let p := runSchedules sendOk now (execAction sendOk now st a) rest
      (p.1, { a with executed := true } :: p.2)
    else
      let p := runSchedules sendOk now st rest
      (p.1, a :: p.2)

/-- processSchedules of app.ino: the execution loop followed by the cleanup
loop.  The cleanup writes each kept entry to the next free slot in order
(`schedules[newCount] = schedules[i]`), which is a stable, order-preserving
compaction — i.e. a filter. -/
def processSchedules (sendOk : Bool) (now : Nat) (st : SysState) : SysState :=
  let p := runSchedules sendOk now st st.schedules
  { p.1 with schedules := p.2.filter (keepB now) }

/-- The flag update the execution loop performs on one entry. -/
def markDue (now : Nat) (a : ScheduleItem) : ScheduleItem :=
  if isDue now a then { a with executed := true } else a

/-- Modelled from the spec: the purge mechanism described in §4.3 — "a
removed slot is filled by the last live entry to keep the sequence dense".
Swap-remove over the entry array, written with structural fuel; used only
to compare the source's compaction with the spec's description. -/
def purgeFillLastGo (now : Nat) : Nat → List ScheduleItem → Nat → List ScheduleItem
  | 0, l, _ => l
  | fuel + 1, l, i =>
    if h : i < l.length then
      if keepB now (l.get ⟨i, h⟩) then purgeFillLastGo now fuel l (i + 1)
      else purgeFillLastGo now fuel
        ((l.set i (l.getLastD ⟨0, 0, false, 0, false⟩)).dropLast) i
    else l

/-- Modelled from the spec: entry point of the swap-remove purge. -/
def purgeFillLast (now : Nat) (items : List ScheduleItem) : List ScheduleItem :=
  purgeFillLastGo now (2 * items.length + 1) items 0

/-- A system state with no slaves, no schedules, an empty log and all
master relays off — the state right after first boot with blank SD files. -/
def emptyState : SysState :=
  { masterRelayStates := [false, false, false, false], slaves := []
    schedules := [], log := [], stateSaves := 0, slaveInfoSaves := 0 }

/-- A registered remote node used in concrete scenarios. -/
def sampleSlave : SlaveInfo :=
  { macAddress := [1, 2, 3, 4, 5, 6], active := false
    relayStates := [false, false, false, false], name := "Kitchen" }

/-- A system state with exactly the one registered remote node. -/
def sampleState : SysState :=
  { emptyState with slaves := [sampleSlave] }

/- Helper lemmas on list decompositions. -/

theorem get_append_cons {α : Type} (pre : List α) (x : α) (post : List α) :
    (pre ++ x :: post).get? pre.length = some x := by
  induction pre with
  | nil => rfl
  | cons a t ih => simpa using ih

theorem set_append_cons {α : Type} (pre : List α) (x y : α) (post : List α) :
    (pre ++ x :: post).set pre.length y = pre ++ y :: post := by
  induction pre with
  | nil => rfl
  | cons a t ih => simp [List.set, ih]

theorem set_getD_self : ∀ (l : List Bool) (i : Nat), i < l.length →
    l.set i (l.getD i false) = l
  | [], i, h => by simp at h
  | a :: t, 0, _ => rfl
  | a :: t, i + 1, h => by
    have ih := set_getD_self t i (Nat.lt_of_succ_lt_succ h)
    simp [List.getD] at ih ⊢
    exact ih

theorem getD4_0 (a b c d : Bool) : ([a, b, c, d] : List Bool).getD 0 false = a := rfl
theorem getD4_1 (a b c d : Bool) : ([a, b, c, d] : List Bool).getD 1 false = b := rfl
theorem getD4_2 (a b c d : Bool) : ([a, b, c, d] : List Bool).getD 2 false = c := rfl
theorem getD4_3 (a b c d : Bool) : ([a, b, c, d] : List Bool).getD 3 false = d := rfl
theorem set4_0 (a b c d x : Bool) : ([a, b, c, d] : List Bool).set 0 x = [x, b, c, d] := rfl
theorem set4_1 (a b c d x : Bool) : ([a, b, c, d] : List Bool).set 1 x = [a, x, c, d] := rfl
theorem set4_2 (a b c d x : Bool) : ([a, b, c, d] : List Bool).set 2 x = [a, b, x, d] := rfl
theorem set4_3 (a b c d x : Bool) : ([a, b, c, d] : List Bool).set 3 x = [a, b, c, x] := rfl

theorem active_eta (sl : SlaveInfo) (h : sl.active = true) :
    { sl with active := true } = sl := by
  cases sl
  simp_all

theorem findAndMark_eq (pre post : List SlaveInfo) (sl : SlaveInfo) (mac : List Nat)
    (hpre : ∀ p ∈ pre, p.macAddress ≠ mac) (hmac : sl.macAddress = mac) :
    findAndMark (pre ++ sl :: post) mac
      = some (pre.length, pre ++ { sl with active := true } :: post) := by
  induction pre with
  | nil => simp [findAndMark, hmac]
  | cons a t ih =>
    have ha : a.macAddress ≠ mac := hpre a (by simp)
    have ih' := ih (fun p hp => hpre p (by simp [hp]))
    simp [findAndMark, ha, ih']

/- Characterization of one reconciliation channel. -/

theorem reconcileStep_slaves (now i rep : Nat) (pre post : List SlaveInfo)
    (sl : SlaveInfo) (st : SysState)
    (hs : st.slaves = pre ++ sl :: post) (hi : i < sl.relayStates.length) :
    (reconcileStep now pre.length i rep st).slaves
      = pre ++ { sl with relayStates := sl.relayStates.set i (rep == 1) } :: post := by
  unfold reconcileStep
  rw [hs]
  simp only [get_append_cons]
  by_cases h : sl.relayStates.getD i false = (rep == 1)
  · rw [if_pos h, hs, ← h, set_getD_self sl.relayStates i hi]
  · rw [if_neg h]
    exact set_append_cons pre sl _ post

theorem reconcileStep_rest (now si i rep : Nat) (st : SysState) :
    (reconcileStep now si i rep st).masterRelayStates = st.masterRelayStates
    ∧ (reconcileStep now si i rep st).schedules = st.schedules
    ∧ (reconcileStep now si i rep st).slaveInfoSaves = st.slaveInfoSaves := by
  refine ⟨?_, ?_, ?_⟩ <;>
  · unfold reconcileStep
    split
    · rfl
    · split <;> rfl

theorem reconcileStep_counts (now i rep : Nat) (pre post : List SlaveInfo)
    (sl : SlaveInfo) (st : SysState) (hs : st.slaves = pre ++ sl :: post) :
    (reconcileStep now pre.length i rep st).log.length
      = st.log.length + (if sl.relayStates.getD i false = (rep == 1) then 0 else 1)
    ∧ (reconcileStep now pre.length i rep st).stateSaves
      = st.stateSaves + (if sl.relayStates.getD i false = (rep == 1) then 0 else 1) := by
  unfold reconcileStep
  rw [hs]
  simp only [get_append_cons]
  by_cases h : sl.relayStates.getD i false = (rep == 1)
  · rw [if_pos h, if_pos h]
    exact ⟨rfl, rfl⟩
  · rw [if_neg h, if_neg h]
    refine ⟨?_, rfl⟩
    show (logRelayChange now (Int.ofNat pre.length) i (rep == 1) st.log).length
      = st.log.length + 1
    simp [logRelayChange]

/- Characterization of the full four-channel reconciliation. -/

theorem reconcileVec_char (now : Nat) (pre post : List SlaveInfo) (sl : SlaveInfo)
    (r0 r1 r2 r3 : Bool) (v0 v1 v2 v3 : Nat) (st : SysState)
    (hs : st.slaves = pre ++ sl :: post)
    (hrs : sl.relayStates = [r0, r1, r2, r3]) :
    (reconcileVec now pre.length v0 v1 v2 v3 st).slaves
        = pre ++ { sl with relayStates := [v0 == 1, v1 == 1, v2 == 1, v3 == 1] } :: post
      ∧ (reconcileVec now pre.length v0 v1 v2 v3 st).masterRelayStates = st.masterRelayStates
      ∧ (reconcileVec now pre.length v0 v1 v2 v3 st).schedules = st.schedules
      ∧ (reconcileVec now pre.length v0 v1 v2 v3 st).slaveInfoSaves = st.slaveInfoSaves
      ∧ (reconcileVec now pre.length v0 v1 v2 v3 st).log.length
          = st.log.length + ((if r0 = (v0 == 1) then 0 else 1)
              + (if r1 = (v1 == 1) then 0 else 1) + (if r2 = (v2 == 1) then 0 else 1)
              + (if r3 = (v3 == 1) then 0 else 1))
      ∧ (reconcileVec now pre.length v0 v1 v2 v3 st).stateSaves
          = st.stateSaves + ((if r0 = (v0 == 1) then 0 else 1)
              + (if r1 = (v1 == 1) then 0 else 1) + (if r2 = (v2 == 1) then 0 else 1)
              + (if r3 = (v3 == 1) then 0 else 1)) := by
  have hs0 : (reconcileStep now pre.length 0 v0 st).slaves
      = pre ++ { sl with relayStates := [v0 == 1, r1, r2, r3] } :: post := by
    rw [reconcileStep_slaves now 0 v0 pre post sl st hs (by rw [hrs]; simp), hrs, set4_0]
  have hc0 : (reconcileStep now pre.length 0 v0 st).log.length
        = st.log.length + (if r0 = (v0 == 1) then 0 else 1)
      ∧ (reconcileStep now pre.length 0 v0 st).stateSaves
        = st.stateSaves + (if r0 = (v0 == 1) then 0 else 1) := by
    have h := reconcileStep_counts now 0 v0 pre post sl st hs
    rwa [hrs, getD4_0] at h
  have hr0 := reconcileStep_rest now pre.length 0 v0 st
  have hs1 : (reconcileStep now pre.length 1 v1 (reconcileStep now pre.length 0 v0 st)).slaves
      = pre ++ { sl with relayStates := [v0 == 1, v1 == 1, r2, r3] } :: post :=
    reconcileStep_slaves now 1 v1 pre post _ _ hs0 (by simp)
  have hc1 : (reconcileStep now pre.length 1 v1 (reconcileStep now pre.length 0 v0 st)).log.length
        = (reconcileStep now pre.length 0 v0 st).log.length + (if r1 = (v1 == 1) then 0 else 1)
      ∧ (reconcileStep now pre.length 1 v1 (reconcileStep now pre.length 0 v0 st)).stateSaves
        = (reconcileStep now pre.length 0 v0 st).stateSaves + (if r1 = (v1 == 1) then 0 else 1) :=
    reconcileStep_counts now 1 v1 pre post _ _ hs0
  have hr1 := reconcileStep_rest now pre.length 1 v1 (reconcileStep now pre.length 0 v0 st)
  have hs2 : (reconcileStep now pre.length 2 v2 (reconcileStep now pre.length 1 v1
        (reconcileStep now pre.length 0 v0 st))).slaves
      = pre ++ { sl with relayStates := [v0 == 1, v1 == 1, v2 == 1, r3] } :: post :=
    reconcileStep_slaves now 2 v2 pre post _ _ hs1 (by simp)
  have hc2 : (reconcileStep now pre.length 2 v2 (reconcileStep now pre.length 1 v1
          (reconcileStep now pre.length 0 v0 st))).log.length
        = (reconcileStep now pre.length 1 v1 (reconcileStep now pre.length 0 v0 st)).log.length
            + (if r2 = (v2 == 1) then 0 else 1)
      ∧ (reconcileStep now pre.length 2 v2 (reconcileStep now pre.length 1 v1
          (reconcileStep now pre.length 0 v0 st))).stateSaves
        = (reconcileStep now pre.length 1 v1 (reconcileStep now pre.length 0 v0 st)).stateSaves
            + (if r2 = (v2 == 1) then 0 else 1) :=
    reconcileStep_counts now 2 v2 pre post _ _ hs1
  have hr2 := reconcileStep_rest now pre.length 2 v2 (reconcileStep now pre.length 1 v1
    (reconcileStep now pre.length 0 v0 st))
  have hs3 : (reconcileStep now pre.length 3 v3 (reconcileStep now pre.length 2 v2
        (reconcileStep now pre.length 1 v1 (reconcileStep now pre.length 0 v0 st)))).slaves
      = pre ++ { sl with relayStates := [v0 == 1, v1 == 1, v2 == 1, v3 == 1] } :: post :=
    reconcileStep_slaves now 3 v3 pre post _ _ hs2 (by simp)
  have hc3 : (reconcileStep now pre.length 3 v3 (reconcileStep now pre.length 2 v2
          (reconcileStep now pre.length 1 v1 (reconcileStep now pre.length 0 v0 st)))).log.length
        = (reconcileStep now pre.length 2 v2 (reconcileStep now pre.length 1 v1
            (reconcileStep now pre.length 0 v0 st))).log.length + (if r3 = (v3 == 1) then 0 else 1)
      ∧ (reconcileStep now pre.length 3 v3 (reconcileStep now pre.length 2 v2
          (reconcileStep now pre.length 1 v1 (reconcileStep now pre.length 0 v0 st)))).stateSaves
        = (reconcileStep now pre.length 2 v2 (reconcileStep now pre.length 1 v1
            (reconcileStep now pre.length 0 v0 st))).stateSaves + (if r3 = (v3 == 1) then 0 else 1) :=
    reconcileStep_counts now 3 v3 pre post _ _ hs2
  have hr3 := reconcileStep_rest now pre.length 3 v3 (reconcileStep now pre.length 2 v2
    (reconcileStep now pre.length 1 v1 (reconcileStep now pre.length 0 v0 st)))
  refine ⟨?_, ?_, ?_, ?_, ?_, ?_⟩
  · show (reconcileStep now pre.length 3 v3 (reconcileStep now pre.length 2 v2
        (reconcileStep now pre.length 1 v1 (reconcileStep now pre.length 0 v0 st)))).slaves = _
    exact hs3
  · show (reconcileStep now pre.length 3 v3 (reconcileStep now pre.length 2 v2
        (reconcileStep now pre.length 1 v1 (reconcileStep now pre.length 0 v0 st)))).masterRelayStates = _
    rw [hr3.1, hr2.1, hr1.1, hr0.1]
  · show (reconcileStep now pre.length 3 v3 (reconcileStep now pre.length 2 v2
        (reconcileStep now pre.length 1 v1 (reconcileStep now pre.length 0 v0 st)))).schedules = _
    rw [hr3.2.1, hr2.2.1, hr1.2.1, hr0.2.1]
  · show (reconcileStep now pre.length 3 v3 (reconcileStep now pre.length 2 v2
        (reconcileStep now pre.length 1 v1 (reconcileStep now pre.length 0 v0 st)))).slaveInfoSaves = _
    rw [hr3.2.2, hr2.2.2, hr1.2.2, hr0.2.2]
  · show (reconcileStep now pre.length 3 v3 (reconcileStep now pre.length 2 v2
        (reconcileStep now pre.length 1 v1 (reconcileStep now pre.length 0 v0 st)))).log.length = _
    rw [hc3.1, hc2.1, hc1.1, hc0.1]
    omega
  · show (reconcileStep now pre.length 3 v3 (reconcileStep now pre.length 2 v2
        (reconcileStep now pre.length 1 v1 (reconcileStep now pre.length 0 v0 st)))).stateSaves = _
    rw [hc3.2, hc2.2, hc1.2, hc0.2]
    omega

theorem reconcileVec_noop (now : Nat) (pre post : List SlaveInfo) (sl : SlaveInfo)
    (v0 v1 v2 v3 : Nat) (st : SysState)
    (hs : st.slaves = pre ++ sl :: post)
    (hrs : sl.relayStates = [v0 == 1, v1 == 1, v2 == 1, v3 == 1]) :
    reconcileVec now pre.length v0 v1 v2 v3 st = st := by
  have h0 : reconcileStep now pre.length 0 v0 st = st := by
    unfold reconcileStep
    rw [hs]
    simp only [get_append_cons]
    rw [if_pos (by rw [hrs]; exact getD4_0 _ _ _ _)]
  have h1 : reconcileStep now pre.length 1 v1 st = st := by
    unfold reconcileStep
    rw [hs]
    simp only [get_append_cons]
    rw [if_pos (by rw [hrs]; exact getD4_1 _ _ _ _)]
  have h2 : reconcileStep now pre.length 2 v2 st = st := by
    unfold reconcileStep
    rw [hs]
    simp only [get_append_cons]
    rw [if_pos (by rw [hrs]; exact getD4_2 _ _ _ _)]
  have h3 : reconcileStep now pre.length 3 v3 st = st := by
    unfold reconcileStep
    rw [hs]
    simp only [get_append_cons]
    rw [if_pos (by rw [hrs]; exact getD4_3 _ _ _ _)]
  show reconcileStep now pre.length 3 v3 (reconcileStep now pre.length 2 v2
    (reconcileStep now pre.length 1 v1 (reconcileStep now pre.length 0 v0 st))) = st
  rw [h0, h1, h2, h3]

/- Characterization of the scheduler execution loop. -/

theorem runSchedules_eq (sendOk : Bool) (now : Nat) (st : SysState)
    (items : List ScheduleItem) :
    runSchedules sendOk now st items
      = ((items.filter (isDue now)).foldl (execAction sendOk now) st,
         items.map (markDue now)) := by
  induction items generalizing st with
  | nil => rfl
  | cons a rest ih =>
    by_cases h : isDue now a
    · simp [runSchedules, h, ih, markDue]
    · simp [runSchedules, h, ih, markDue]

/-- Claim C1, counterexample: the claim says no log entry, persistence
write, or state-set is produced for a channel whose requested value equals
its current value, for commands as well as reconciliations.  But the
command path logs and persists unconditionally: with master relay 0 already
ON, the /toggle command requesting ON again appends a log row and rewrites
the persisted state. -/
theorem c1_counterexample :
    ({ emptyState with masterRelayStates := [true, false, false, false] }
        : SysState).masterRelayStates.getD 0 false = true
    ∧ (handleRelayToggle true 100
        { emptyState with masterRelayStates := [true, false, false, false] }
        (-1) 0 true).log.length = 1
    ∧ (handleRelayToggle true 100
        { emptyState with masterRelayStates := [true, false, false, false] }
        (-1) 0 true).stateSaves = 1 := by
  decide

/-- Claim C2, counterexample: the claim says a link-layer send failure does
not roll back or prevent the optimistic local state change.  In the code
the optimistic update is inside the send-success branch: on failure nothing
at all happens — the slave relay stays OFF and no log row is appended. -/
theorem c2_counterexample :
    sendCommandToSlave false 100 sampleState 0 0 true = sampleState
    ∧ ((sampleState.slaves.get? 0).map SlaveInfo.relayStates)
        = some [false, false, false, false]
    ∧ sampleState.log.length = 0 := by
  decide

/-- Claim C3: evaluation of the code at the failing input.  With the log
holding one prior entry for (node 0, relay 1, ON) at time 0, appending ON
again at time 100 produces duration 100 in the code, whereas the rule
claimed by the spec (most recent prior entry with a differing state; zero
if none) yields 0: the code's prevState extraction grabs the "Relay,State"
field pair, so its equality test against "ON"/"OFF" never fires. -/
theorem c3_divergence :
    logRelayChange 100 0 1 true [⟨0, 0, 1, true, 0⟩]
      = [⟨0, 0, 1, true, 0⟩, ⟨100, 0, 1, true, 100⟩]
    ∧ specLastDifferingDuration 100 0 1 true [⟨0, 0, 1, true, 0⟩] = 0 := by
  decide

/-- Claim C4, counterexample: the claim says re-registering a known address
resolves to the existing NodeId, updates the name, and leaves the node
count unchanged.  The code never looks the address up: registering the
already-known MAC 01:02:03:04:05:06 again appends a second entry (count 1
becomes 2), keeps the original entry's name "Kitchen" untouched, and the
new entry carries the same address. -/
theorem c4_counterexample :
    ((sampleState.slaves.get? 0).map SlaveInfo.macAddress) = some [1, 2, 3, 4, 5, 6]
    ∧ (handleAddSlave true sampleState [1, 2, 3, 4, 5, 6] "NewName").slaves.length = 2
    ∧ ((handleAddSlave true sampleState [1, 2, 3, 4, 5, 6] "NewName").slaves.get? 0).map
        SlaveInfo.name = some "Kitchen"
    ∧ ((handleAddSlave true sampleState [1, 2, 3, 4, 5, 6] "NewName").slaves.get? 1).map
        SlaveInfo.macAddress = some [1, 2, 3, 4, 5, 6] := by
  decide

/-- Claim C5, counterexample: the claim says that after auto-registering an
unknown sender, reconciliation of the reported vector proceeds against the
new node.  In the code the unknown-sender branch only registers: with a
report of [1,0,0,0] from an unknown address, the new entry's channels are
all false and the log stays empty — the reported vector is discarded. -/
theorem c5_counterexample :
    (onDataReceived true 100 emptyState [1, 2, 3, 4, 5, 6] [1, 0, 0, 0]).slaves
      = [autoSlave [1, 2, 3, 4, 5, 6]]
    ∧ ((onDataReceived true 100 emptyState [1, 2, 3, 4, 5, 6] [1, 0, 0, 0]).slaves.get? 0).map
        SlaveInfo.relayStates = some [false, false, false, false]
    ∧ (onDataReceived true 100 emptyState [1, 2, 3, 4, 5, 6] [1, 0, 0, 0]).log = [] := by
  decide

/-- Claim C9, counterexample: the claim says the purge reclaims a removed
slot by filling it with the last live entry.  The code's cleanup loop is a
stable compaction: with entries A (executed long ago, purged), B (live),
C (recently executed, kept), the code yields [B, C] while the claimed
fill-with-last mechanism yields [C, B]. -/
theorem c9_counterexample :
    (processSchedules true 100000
        { emptyState with schedules :=
            [⟨0, 2, true, 0, true⟩, ⟨-1, 0, true, 200000, false⟩,
             ⟨-1, 1, false, 90000, true⟩] }).schedules
      = [⟨-1, 0, true, 200000, false⟩, ⟨-1, 1, false, 90000, true⟩]
    ∧ purgeFillLast 100000
        [⟨0, 2, true, 0, true⟩, ⟨-1, 0, true, 200000, false⟩, ⟨-1, 1, false, 90000, true⟩]
      = [⟨-1, 1, false, 90000, true⟩, ⟨-1, 0, true, 200000, false⟩]
    ∧ ([⟨-1, 0, true, 200000, false⟩, ⟨-1, 1, false, 90000, true⟩] : List ScheduleItem)
      ≠ [⟨-1, 1, false, 90000, true⟩, ⟨-1, 0, true, 200000, false⟩] := by
  decide

/-- Claim C6: on a tick, processSchedules executes exactly the due entries
(not yet executed, fire time ≤ now), in storage order — the foldl over the
order-preserving filter — invoking the command-path dispatch `execAction`
with each action's own parameters, and the stored entries are exactly the
old ones with the executed flag set on the due ones (so a flag goes
false → true only when fire time ≤ now, and an already-executed action is
never dispatched again).  Two due actions with equal fire times are folded
in insertion order: A before B. -/
theorem c6_tick_order_flags (sendOk : Bool) (now : Nat) (st : SysState) :
    processSchedules sendOk now st
      = { (st.schedules.filter (isDue now)).foldl (execAction sendOk now) st with
          schedules := (st.schedules.map (markDue now)).filter (keepB now) } := by
  simp only [processSchedules, runSchedules_eq]

/-- Claim C8: handleSchedule rejects, with no mutation at all, a request
when the queue already holds MAX_SCHEDULES entries or the delay lies
outside 1..1440 minutes; an accepted request appends exactly one item with
executed = false and absolute fire time now + minutes·60·1000 computed in
the firmware's 32-bit unsigned arithmetic — equal to the plain sum
whenever that sum does not cross the 2^32 millis() rollover. -/
theorem c8_schedule_bounds (room relay : Int) (b : Bool) (minutes : Int)
    (now : Nat) (st : SysState) :
    ((20 ≤ st.schedules.length ∨ minutes < 1 ∨ 1440 < minutes) →
        handleSchedule room relay b minutes now st = st)
    ∧ (st.schedules.length < 20 → 1 ≤ minutes → minutes ≤ 1440 →
        handleSchedule room relay b minutes now st
          = { st with schedules := st.schedules
              ++ [⟨room, relay, b, uadd32 now (minutes.toNat * 60 * 1000), false⟩] })
    ∧ (now + minutes.toNat * 60 * 1000 < 4294967296 →
        uadd32 now (minutes.toNat * 60 * 1000) = now + minutes.toNat * 60 * 1000) := by
  refine ⟨?_, ?_, ?_⟩
  · intro h
    unfold handleSchedule
    rw [if_neg (by omega)]
  · intro h1 h2 h3
    unfold handleSchedule
    rw [if_pos ⟨h1, by omega, h3⟩]
  · intro h
    exact Nat.mod_eq_of_lt h

/-- Claim C8, witness: with an empty queue, a 0-minute delay is rejected
without mutation and a 5-minute delay at millis()=1000 enqueues one item
firing at 301000. -/
theorem c8_witness :
    handleSchedule (-1) 0 true 0 1000 emptyState = emptyState
    ∧ handleSchedule (-1) 0 true 5 1000 emptyState
      = { emptyState with schedules := [⟨-1, 0, true, 301000, false⟩] } := by
  constructor
  · exact (c8_schedule_bounds (-1) 0 true 0 1000 emptyState).1 (by omega)
  · have h := (c8_schedule_bounds (-1) 0 true 5 1000 emptyState).2.1
      (by decide) (by omega) (by omega)
    simpa [uadd32] using h

/-- Claim C9 (amended): on each tick, executed actions whose age exceeds
the 60000 ms retention window are purged while non-executed and recently
executed actions are retained; the compaction is stable — kept entries are
shifted down preserving their relative (insertion) order, i.e. the result
is the order-preserving filter of (and a sublist of) the post-execution
entry list, not a fill-with-last swap. -/
theorem c9_purge_retention (sendOk : Bool) (now : Nat) (st : SysState) :
    (processSchedules sendOk now st).schedules
        = (st.schedules.map (markDue now)).filter (keepB now)
    ∧ ((processSchedules sendOk now st).schedules).Sublist
        (st.schedules.map (markDue now))
    ∧ ∀ a ∈ (processSchedules sendOk now st).schedules,
        a.executed = false ∨ usub32 now a.targetTime < 60000 := by
  have h : (processSchedules sendOk now st).schedules
      = (st.schedules.map (markDue now)).filter (keepB now) := by
    simp only [processSchedules, runSchedules_eq]
  refine ⟨h, ?_, ?_⟩
  · rw [h]
    exact List.filter_sublist _
  · intro a ha
    rw [h] at ha
    have h2 := (List.mem_filter.mp ha).2
    simp only [keepB, Bool.or_eq_true, Bool.not_eq_true', decide_eq_true_eq] at h2
    exact h2

/-- Claim C10: a due scheduled action whose target indices are out of range
(master with relay outside 0..3, or a non-master room outside the current
slave range) leaves the relay states, the log and the persistence counters
untouched while the tick still marks it executed; and sendCommandToSlave
with a slave index outside 0..slaveCount-1 is a total no-op. -/
theorem c10_oob_noop (sendOk : Bool) (now : Nat) (st : SysState) (a : ScheduleItem)
    (i : Int) (r : Nat) (b : Bool)
    (ha : (a.roomIndex = -1 ∧ ¬(0 ≤ a.relayIndex ∧ a.relayIndex < 4))
        ∨ (a.roomIndex ≠ -1 ∧ ¬(0 ≤ a.roomIndex
            ∧ a.roomIndex < (st.slaves.length : Int)
            ∧ 0 ≤ a.relayIndex ∧ a.relayIndex < 4)))
    (hdue : a.executed = false ∧ a.targetTime ≤ now)
    (hi : i < 0 ∨ (st.slaves.length : Int) ≤ i) :
    execAction sendOk now st a = st
    ∧ (runSchedules sendOk now st [a]).1 = st
    ∧ (runSchedules sendOk now st [a]).2 = [{ a with executed := true }]
    ∧ sendCommandToSlave sendOk now st i r b = st := by
  have hexec : execAction sendOk now st a = st := by
    unfold execAction
    rcases ha with ⟨h1, h2⟩ | ⟨h1, h2⟩
    · rw [if_pos h1, if_neg h2]
    · rw [if_neg h1, if_neg h2]
  have hdueB : isDue now a = true := by
    simp [isDue, hdue.1, hdue.2]
  have hrun := runSchedules_eq sendOk now st [a]
  refine ⟨hexec, ?_, ?_, ?_⟩
  · rw [hrun]
    simp [hdueB, hexec]
  · rw [hrun]
    simp [markDue, hdueB]
  · unfold sendCommandToSlave
    rw [if_pos hi]

/-- Claim C10, witness: a due master action targeting relay 7 is marked
executed with no other effect, and a command to the nonexistent slave 5 of
a one-slave directory changes nothing. -/
theorem c10_witness :
    execAction true 10 sampleState ⟨-1, 7, true, 0, false⟩ = sampleState
    ∧ (runSchedules true 10 sampleState [⟨-1, 7, true, 0, false⟩]).1 = sampleState
    ∧ (runSchedules true 10 sampleState [⟨-1, 7, true, 0, false⟩]).2
        = [⟨-1, 7, true, 0, true⟩]
    ∧ sendCommandToSlave true 10 sampleState 5 0 true = sampleState :=
  c10_oob_noop true 10 sampleState ⟨-1, 7, true, 0, false⟩ 5 0 true
    (Or.inl ⟨rfl, by decide⟩) ⟨rfl, by decide⟩ (by decide)

/-- Claim C2 (amended): for a command to a remote node, the optimistic
state-set + log + persist sequence is applied before any confirmation of
effect, but only inside the send-success branch; a link-layer send failure
is reported and the command is dropped entirely — no state-set, no log
entry, no persistence write (so there is never anything to roll back). -/
theorem c2_optimistic_no_rollback (now : Nat) (st : SysState) (j : Int) (rn : Nat)
    (b : Bool) (sl : SlaveInfo)
    (hj : 0 ≤ j ∧ j < (st.slaves.length : Int))
    (hget : st.slaves.get? j.toNat = some sl) :
    (sendCommandToSlave true now st j rn b).slaves
        = st.slaves.set j.toNat { sl with relayStates := sl.relayStates.set rn b }
    ∧ (sendCommandToSlave true now st j rn b).log.length = st.log.length + 1
    ∧ (sendCommandToSlave true now st j rn b).stateSaves = st.stateSaves + 1
    ∧ sendCommandToSlave false now st j rn b = st := by
  have hguard : ¬(j < 0 ∨ (st.slaves.length : Int) ≤ j) := by omega
  refine ⟨?_, ?_, ?_, ?_⟩
  · unfold sendCommandToSlave
    rw [if_neg hguard, if_pos rfl, hget]
  · unfold sendCommandToSlave
    rw [if_neg hguard, if_pos rfl, hget]
    show (logRelayChange now (Int.ofNat j.toNat) rn b st.log).length = st.log.length + 1
    simp [logRelayChange]
  · unfold sendCommandToSlave
    rw [if_neg hguard, if_pos rfl, hget]
  · unfold sendCommandToSlave
    rw [if_neg hguard, if_neg (by simp)]

/-- Claim C2, witness: commanding slave 0 relay 0 ON with a successful send
sets the state optimistically and appends one log row; the same command
with a failed send leaves the state identical. -/
theorem c2_witness :
    (sendCommandToSlave true 100 sampleState 0 0 true).slaves
        = sampleState.slaves.set (0 : Int).toNat
            { sampleSlave with relayStates := sampleSlave.relayStates.set 0 true }
    ∧ (sendCommandToSlave true 100 sampleState 0 0 true).log.length
        = sampleState.log.length + 1
    ∧ (sendCommandToSlave true 100 sampleState 0 0 true).stateSaves
        = sampleState.stateSaves + 1
    ∧ sendCommandToSlave false 100 sampleState 0 0 true = sampleState :=
  c2_optimistic_no_rollback 100 sampleState 0 0 true sampleSlave (by decide) rfl

/-- Claim C4 (amended): handleAddSlave performs no duplicate-address check:
below the node cap and with the external peer-add succeeding, it appends a
fresh entry even when the address is already registered — the node count
grows by one, the existing entry (name included) is left untouched, and no
existing-id resolution takes place; when the peer-add fails nothing at all
is committed. -/
theorem c4_duplicate_appends (st : SysState) (mac : List Nat) (name : String)
    (i : Nat) (sl : SlaveInfo)
    (hcap : st.slaves.length < 10)
    (hget : st.slaves.get? i = some sl) (hmac : sl.macAddress = mac) :
    (handleAddSlave true st mac name).slaves = st.slaves ++ [mkSlave mac name]
    ∧ (handleAddSlave true st mac name).slaves.length = st.slaves.length + 1
    ∧ (handleAddSlave true st mac name).slaves.get? i = some sl
    ∧ handleAddSlave false st mac name = st := by
  have hlen : i < st.slaves.length := by
    by_contra hc
    rw [List.get?_eq_none.mpr (Nat.le_of_not_lt hc)] at hget
    exact Option.noConfusion hget
  refine ⟨?_, ?_, ?_, ?_⟩
  · unfold handleAddSlave
    rw [if_pos ⟨hcap, rfl⟩]
  · unfold handleAddSlave
    rw [if_pos ⟨hcap, rfl⟩]
    simp
  · unfold handleAddSlave
    rw [if_pos ⟨hcap, rfl⟩]
    show (st.slaves ++ [mkSlave mac name]).get? i = some sl
    rw [List.get?_append hlen, hget]
  · unfold handleAddSlave
    rw [if_neg (by simp)]

/-- Claim C4, witness: re-registering the already-known MAC
01:02:03:04:05:06 appends a second entry, leaves entry 0 untouched, and a
failed peer-add commits nothing. -/
theorem c4_witness :
    (handleAddSlave true sampleState [1, 2, 3, 4, 5, 6] "NewRoom").slaves
        = sampleState.slaves ++ [mkSlave [1, 2, 3, 4, 5, 6] "NewRoom"]
    ∧ (handleAddSlave true sampleState [1, 2, 3, 4, 5, 6] "NewRoom").slaves.length
        = sampleState.slaves.length + 1
    ∧ (handleAddSlave true sampleState [1, 2, 3, 4, 5, 6] "NewRoom").slaves.get? 0
        = some sampleSlave
    ∧ handleAddSlave false sampleState [1, 2, 3, 4, 5, 6] "NewRoom" = sampleState :=
  c4_duplicate_appends sampleState [1, 2, 3, 4, 5, 6] "NewRoom" 0 sampleSlave
    (by decide) rfl rfl

/-- Claim C5 (amended): a status report from an unknown sender below the
node cap auto-registers the sender with the generated default name
("Auto " + MAC), active, and an all-false channel vector, and rewrites the
slave directory file — but the reported vector of that message is
discarded: no reconciliation, no state-set, no log entry.  If the external
peer-add fails, nothing changes. -/
theorem c5_autoregister_discards_report (now : Nat) (st : SysState) (mac : List Nat)
    (v : List Nat)
    (hunk : findAndMark st.slaves mac = none) (hcap : st.slaves.length < 10) :
    onDataReceived true now st mac v
      = { st with
          slaves := st.slaves ++ [autoSlave mac],
          slaveInfoSaves := st.slaveInfoSaves + 1 }
    ∧ (autoSlave mac).name = "Auto " ++ getMacString mac
    ∧ (autoSlave mac).active = true
    ∧ (autoSlave mac).relayStates = [false, false, false, false]
    ∧ onDataReceived false now st mac v = st := by
  refine ⟨?_, rfl, rfl, rfl, ?_⟩
  · unfold onDataReceived
    simp only [hunk]
    rw [if_pos ⟨hcap, by trivial⟩]
  · unfold onDataReceived
    simp only [hunk]
    rw [if_neg (by simp)]

/-- Claim C5, witness: a [1,0,0,0] report from the unknown MAC
01:02:03:04:05:06 registers it named "Auto 01:02:03:04:05:06" with all
channels false and leaves the log empty; with a failed peer-add nothing
changes. -/
theorem c5_witness :
    onDataReceived true 100 emptyState [1, 2, 3, 4, 5, 6] [1, 0, 0, 0]
      = { emptyState with
          slaves := emptyState.slaves ++ [autoSlave [1, 2, 3, 4, 5, 6]],
          slaveInfoSaves := emptyState.slaveInfoSaves + 1 }
    ∧ (autoSlave [1, 2, 3, 4, 5, 6]).name = "Auto " ++ getMacString [1, 2, 3, 4, 5, 6]
    ∧ (autoSlave [1, 2, 3, 4, 5, 6]).active = true
    ∧ (autoSlave [1, 2, 3, 4, 5, 6]).relayStates = [false, false, false, false]
    ∧ onDataReceived false 100 emptyState [1, 2, 3, 4, 5, 6] [1, 0, 0, 0] = emptyState :=
  c5_autoregister_discards_report 100 emptyState [1, 2, 3, 4, 5, 6] [1, 0, 0, 0]
    rfl (by decide)

/-- Claim C1 (amended): a reconciliation produces exactly one state-set,
one log entry and one persistence write per actually-changed channel and
none for unchanged channels (the per-channel count below is 1 exactly when
the stored value differs from the reported one), and it leaves the node's
vector equal to the reported vector with the node marked active.  A
command, by contrast, applies the state-set + log + persist sequence
unconditionally — the master path shown here appends exactly one log entry
and one persistence write even when the requested value equals the current
value (and the slave path behaves the same on send success, see the C2
theorem). -/
theorem c1_per_channel_writes (apk sendOk : Bool) (now now2 : Nat) (st st2 : SysState)
    (pre post : List SlaveInfo) (sl : SlaveInfo) (mac : List Nat)
    (r0 r1 r2 r3 : Bool) (v0 v1 v2 v3 : Nat) (r : Int) (b : Bool)
    (hs : st.slaves = pre ++ sl :: post)
    (hmac : sl.macAddress = mac)
    (hpre : ∀ p ∈ pre, p.macAddress ≠ mac)
    (hrs : sl.relayStates = [r0, r1, r2, r3])
    (hr : 0 ≤ r ∧ r < 4) :
    ((onDataReceived apk now st mac [v0, v1, v2, v3]).log.length
        = st.log.length + ((if r0 = (v0 == 1) then 0 else 1)
            + (if r1 = (v1 == 1) then 0 else 1) + (if r2 = (v2 == 1) then 0 else 1)
            + (if r3 = (v3 == 1) then 0 else 1))
      ∧ (onDataReceived apk now st mac [v0, v1, v2, v3]).stateSaves
        = st.stateSaves + ((if r0 = (v0 == 1) then 0 else 1)
            + (if r1 = (v1 == 1) then 0 else 1) + (if r2 = (v2 == 1) then 0 else 1)
            + (if r3 = (v3 == 1) then 0 else 1))
      ∧ (onDataReceived apk now st mac [v0, v1, v2, v3]).slaves
        = pre ++ { sl with
            active := true,
            relayStates := [v0 == 1, v1 == 1, v2 == 1, v3 == 1] } :: post)
    ∧ ((handleRelayToggle sendOk now2 st2 (-1) r b).log.length = st2.log.length + 1
      ∧ (handleRelayToggle sendOk now2 st2 (-1) r b).stateSaves = st2.stateSaves + 1
      ∧ (handleRelayToggle sendOk now2 st2 (-1) r b).masterRelayStates
        = st2.masterRelayStates.set r.toNat b) := by
  have h1 : onDataReceived apk now st mac [v0, v1, v2, v3]
      = reconcileVec now pre.length v0 v1 v2 v3
          { st with slaves := pre ++ { sl with active := true } :: post } := by
    unfold onDataReceived
    rw [hs]
    simp only [findAndMark_eq pre post sl mac hpre hmac]
  have hrs1 : ({ sl with active := true } : SlaveInfo).relayStates = [r0, r1, r2, r3] := hrs
  obtain ⟨hsl, hm, hsch, hsis, hlog, hsav⟩ := reconcileVec_char now pre post
    ({ sl with active := true }) r0 r1 r2 r3 v0 v1 v2 v3
    { st with slaves := pre ++ { sl with active := true } :: post } rfl hrs1
  refine ⟨⟨?_, ?_, ?_⟩, ?_, ?_, ?_⟩
  · rw [h1]
    exact hlog
  · rw [h1]
    exact hsav
  · rw [h1]
    exact hsl
  · unfold handleRelayToggle
    rw [if_pos rfl, if_pos hr]
    show (logRelayChange now2 (-1) r.toNat b st2.log).length = st2.log.length + 1
    simp [logRelayChange]
  · unfold handleRelayToggle
    rw [if_pos rfl, if_pos hr]
    rfl
  · unfold handleRelayToggle
    rw [if_pos rfl, if_pos hr]
    rfl

/-- Claim C1, witness: a [1,0,0,0] report to the all-off registered node
changes exactly channel 0, producing exactly one log entry and one
persistence write; and a master toggle appends exactly one log entry. -/
theorem c1_witness :
    (onDataReceived true 7 sampleState [1, 2, 3, 4, 5, 6] [1, 0, 0, 0]).log.length = 1
    ∧ (onDataReceived true 7 sampleState [1, 2, 3, 4, 5, 6] [1, 0, 0, 0]).stateSaves = 1
    ∧ (handleRelayToggle true 9 emptyState (-1) 0 true).log.length = 1 := by
  have h := c1_per_channel_writes true true 7 9 sampleState emptyState [] [] sampleSlave
    [1, 2, 3, 4, 5, 6] false false false false 1 0 0 0 0 true rfl rfl (by simp) rfl
    (by decide)
  refine ⟨?_, ?_, ?_⟩
  · have h2 := h.1.1
    simpa [sampleState, emptyState] using h2
  · have h2 := h.1.2.1
    simpa [sampleState, emptyState] using h2
  · have h2 := h.2.1
    simpa [emptyState] using h2

theorem sys_eta_slaves (st : SysState) (l : List SlaveInfo) (h : st.slaves = l) :
    ({ st with slaves := l } : SysState) = st := by
  rw [← h]

/-- Claim C7: reconciliation is idempotent — a second onDataReceived call
from a known sender with the identical status vector returns the state of
the first call unchanged (so no log entries, state-sets or persistence
writes are produced by the second call; the first call writes exactly the
differing channels, see the C1 theorem), and the reporting node is marked
active. -/
theorem c7_reconcile_idempotent (apk1 apk2 : Bool) (now1 now2 : Nat) (st : SysState)
    (pre post : List SlaveInfo) (sl : SlaveInfo) (mac : List Nat)
    (r0 r1 r2 r3 : Bool) (v0 v1 v2 v3 : Nat)
    (hs : st.slaves = pre ++ sl :: post)
    (hmac : sl.macAddress = mac)
    (hpre : ∀ p ∈ pre, p.macAddress ≠ mac)
    (hrs : sl.relayStates = [r0, r1, r2, r3]) :
    onDataReceived apk2 now2 (onDataReceived apk1 now1 st mac [v0, v1, v2, v3])
        mac [v0, v1, v2, v3]
      = onDataReceived apk1 now1 st mac [v0, v1, v2, v3]
    ∧ ((onDataReceived apk1 now1 st mac [v0, v1, v2, v3]).slaves.get? pre.length).map
        SlaveInfo.active = some true := by
  have h1 : onDataReceived apk1 now1 st mac [v0, v1, v2, v3]
      = reconcileVec now1 pre.length v0 v1 v2 v3
          { st with slaves := pre ++ { sl with active := true } :: post } := by
    unfold onDataReceived
    rw [hs]
    simp only [findAndMark_eq pre post sl mac hpre hmac]
  have hrs1 : ({ sl with active := true } : SlaveInfo).relayStates = [r0, r1, r2, r3] := hrs
  obtain ⟨hsl, _, _, _, _, _⟩ := reconcileVec_char now1 pre post
    ({ sl with active := true }) r0 r1 r2 r3 v0 v1 v2 v3
    { st with slaves := pre ++ { sl with active := true } :: post } rfl hrs1
  have hXmac : ({ { sl with active := true } with
      relayStates := [v0 == 1, v1 == 1, v2 == 1, v3 == 1] } : SlaveInfo).macAddress
      = mac := hmac
  constructor
  · rw [h1]
    unfold onDataReceived
    rw [hsl]
    simp only [findAndMark_eq pre post _ mac hpre hXmac]
    refine (reconcileVec_noop now2 pre post _ v0 v1 v2 v3 _ rfl rfl).trans ?_
    exact sys_eta_slaves _ _ hsl
  · rw [h1, hsl, get_append_cons]
    rfl

/-- Claim C7, witness: the same [1,0,0,0] report delivered twice to the
registered node — the second delivery returns the post-first-call state
unchanged, and the node is active after the first call. -/
theorem c7_witness :
    onDataReceived true 5 (onDataReceived true 3 sampleState [1, 2, 3, 4, 5, 6] [1, 0, 0, 0])
        [1, 2, 3, 4, 5, 6] [1, 0, 0, 0]
      = onDataReceived true 3 sampleState [1, 2, 3, 4, 5, 6] [1, 0, 0, 0]
    ∧ ((onDataReceived true 3 sampleState [1, 2, 3, 4, 5, 6] [1, 0, 0, 0]).slaves.get? 0).map
        SlaveInfo.active = some true := by
  have h := c7_reconcile_idempotent true true 3 5 sampleState [] [] sampleSlave
    [1, 2, 3, 4, 5, 6] false false false false 1 0 0 0 rfl rfl (by simp) rfl
  exact h
